import Mathlib

/-!
Verification development for the `miraichan-music-lottery` repository
(`src/music_lottery/{core,musiclib,models,utils}.py`).

Shallow embedding conventions:
* Python `str` values that the program inspects character by character are
  `List Char` (abbreviated `Str`); opaque identifiers (file paths used only as
  dictionary keys, UUIDs) are `String` resp. `Nat`.
* Timestamps (`time.time()`, mtimes, session expiry) are `Nat`; the source
  only compares and adds them, never does float arithmetic on them.
* The external collaborators (TinyTag, the SQL record store, the scheduler)
  are modelled at their interface boundary: TinyTag as an oracle
  `String → Except Unit TagDict` that may fail (its documented behaviour:
  `TinyTag.get` raises on unsupported or malformed files), the record store
  as explicit lists of rows, `ORDER BY random() LIMIT 1` as an arbitrary
  index into the matching rows.
-/

namespace MusicLottery

abbrev Str := List Char

/-! ### Artist-field splitting (`musiclib.py`, `split_with_exclusions`) -/

/-- `isMatchAt d s` is true iff `d` is a prefix of `s` (the delimiter occurs
at the current scan position of Python's `str.split`). -/
def isMatchAt : Str → Str → Bool
  | [], _ => true
  | _ :: _, [] => false
  | c :: cs, x :: xs => c == x && isMatchAt cs xs

/-- Leftmost occurrence of delimiter `d` in `s`: returns the text before the
occurrence and the text after it.  Returns `none` when `d` does not occur
(or when `d` is empty — Python's `str.split("")` raises `ValueError`; the
claims only quantify over non-empty delimiters). -/
def splitFirst (d : Str) : Str → Option (Str × Str)
  | [] => none
  | c :: cs =>
    if d.isEmpty then none
    else if isMatchAt d (c :: cs) then some ([], (c :: cs).drop d.length)
    else (splitFirst d cs).map (fun pr => (c :: pr.1, pr.2))

/-- Fuel-driven worker for `pySplit`; `fuel ≥ s.length` makes it equal to
Python's `s.split(d)` (each successful split strictly shortens the rest, so
`s.length` steps always suffice). -/
def pySplitAux (d : Str) : Nat → Str → List Str
  | 0, s => [s]
  | fuel + 1, s =>
    match splitFirst d s with
    | none => [s]
    | some (pre, post) => pre :: pySplitAux d fuel post

/-- Python `input_string.split(delimiter)` for a non-empty delimiter. -/
def pySplit (d s : Str) : List Str :=
  pySplitAux d s.length s

/-- Python `delimiter.join(segments)`. -/
def pyJoin (d : Str) : List Str → Str
  | [] => []
  | [x] => x
  | x :: y :: rest => x ++ d ++ pyJoin d (y :: rest)

/-- Python `str.lower`, character by character (exclusion matching in the
source only ever runs with ASCII-compatible data). -/
def lowerStr (s : Str) : Str := s.map Char.toLower

/-- The `while` loop of `split_with_exclusions` (`musiclib.py` lines 43-58):
walk the split segments; whenever the current and the next segment rejoined
with the delimiter are exactly one of the (already case-normalised)
exclusions, emit the rejoined string and consume both segments. -/
def mergeExcs (d : Str) (excs : List Str) (ignore_case : Bool) : List Str → List Str
  | [] => []
  | [x] => [x]
  | x :: y :: rest =>
    if (if ignore_case then lowerStr (x ++ d ++ y) else x ++ d ++ y) ∈ excs then
      (x ++ d ++ y) :: mergeExcs d excs ignore_case rest
    else
      x :: mergeExcs d excs ignore_case (y :: rest)

/-- `split_with_exclusions` (`musiclib.py` lines 33-58).  An empty exclusion
list (Python `if not exclusions`) returns the plain split; otherwise the
exclusion set is lowercased when `ignore_case` and the merge loop runs. -/
def split_with_exclusions (input_string : Str) (delimiter : Str)
    (exclusions : List Str) (ignore_case : Bool) : List Str :=
  let inputs := pySplit delimiter input_string
  if exclusions.isEmpty then inputs
  else
    mergeExcs delimiter
      (if ignore_case then exclusions.map lowerStr else exclusions)
      ignore_case inputs

/-! ### Metadata reading (`musiclib.py`, `MetadataReader`) -/

/-- The configuration fields consumed by `MetadataReader`
(`models.py`, `ConfigModel`). -/
structure ConfigModel where
  artists_split : List Str
  artists_dont_split : List Str
deriving DecidableEq

/-- The defaults of `ConfigModel` (`models.py` lines 54-55):
`artists_split = ["/", ";", ","]`, `artists_dont_split = []`. -/
def defaultConfig : ConfigModel :=
  { artists_split := [[Char.ofNat 47], [Char.ofNat 59], [Char.ofNat 44]]
    artists_dont_split := [] }

/-- The `for split in self.config.artists_split` loop of
`handle_artist_field`: return the first candidate's split when it has more
than one segment; fall through to `none` (Python's implicit `return None`)
otherwise. -/
def firstGoodSplit (dont : List Str) (a : Str) : List Str → Option (List Str)
  | [] => none
  | d :: ds =>
    let result := split_with_exclusions a d dont false
    if result.length > 1 then some result else firstGoodSplit dont a ds

/-- `MetadataReader.handle_artist_field` (`musiclib.py` lines 65-79).
A field that is not a single element is passed through unchanged; a single
element is split with the first delimiter candidate that yields more than
one segment; when none does, the Python function falls off the end and
returns `None` (modelled as `none`). -/
def handle_artist_field (cfg : ConfigModel) (artist_field : List Str) :
    Option (List Str) :=
  match artist_field with
  | [a] => firstGoodSplit cfg.artists_dont_split a cfg.artists_split
  | l => some l

/-- Models `json.dumps` string escaping for the quote and backslash
characters; control-character escaping is omitted (no claim exercises
control characters inside metadata). -/
def jsonEscapeChar (c : Char) : Str :=
  if c.toNat = 34 ∨ c.toNat = 92 then [Char.ofNat 92, c] else [c]

/-- A JSON string literal for `s`. -/
def jsonStr (s : Str) : Str :=
  Char.ofNat 34 :: (s.flatMap jsonEscapeChar ++ [Char.ofNat 34])

/-- Models `json.dumps(x, ensure_ascii=False)` for the two shapes the source
passes it: a list of strings (default separator `", "`) and Python `None`
(serialised as `null`). -/
def jsonDumps : Option (List Str) → Str
  | none => ("null").data
  | some l => Char.ofNat 91 :: (pyJoin ((", ").data) (l.map jsonStr) ++ [Char.ofNat 93])

/-- The fields of `TinyTag.get(path).as_dict()` that `read_metadata`
consumes.  String-valued fields are non-empty lists when present (tinytag's
`as_dict` stores multi-values as lists and omits absent tags), modelled as
`Option (Str × List Str)`; `artist`/`albumartist` default to `[]` via
`tagd.pop("artist", [])`; `duration` is a plain optional number. -/
structure TagDict where
  title : Option (Str × List Str) := none
  album : Option (Str × List Str) := none
  artist : List Str := []
  albumartist : List Str := []
  duration : Option ℚ := none
deriving DecidableEq

/-- `MusicMeta` (`models.py` lines 10-15).  `artists`/`albumartists` are the
stored JSON-serialised strings. -/
structure MusicMeta where
  title : Option Str := none
  album : Option Str := none
  artists : Str := ("[]").data
  albumartists : Str := ("[]").data
  duration : ℚ := 0
deriving DecidableEq

/-- `MetadataReader.read_metadata` (`musiclib.py` lines 81-95), over a
TinyTag oracle `tinytag_get`.  The source has no exception handler, so a
TinyTag failure propagates (`Except.error`).  On success it takes the first
element of present tag lists (`tagd.pop("title", (None,))[0]`), splits the
artist fields, serialises them with `json.dumps`, and defaults the duration
to `0`. -/
def read_metadata (cfg : ConfigModel) (tinytag_get : String → Except Unit TagDict)
    (path : String) : Except Unit MusicMeta :=
  (tinytag_get path).map (fun tagd =>
    { title := tagd.title.map Prod.fst
      album := tagd.album.map Prod.fst
      artists := jsonDumps (handle_artist_field cfg tagd.artist)
      albumartists := jsonDumps (handle_artist_field cfg tagd.albumartist)
      duration := tagd.duration.getD 0 })

/-! ### Catalog rows and reconciliation (`core.py`, `scan_update_musiclib`) -/

/-- `MusicLibItem` (`models.py` lines 18-21): the `MusicMeta` fields plus the
primary key `id`, the unique `path`, and the change-detection watermark
`last_update`.  `id` (a UUID in the source) is an opaque `Nat`; `path` is an
opaque `String` key. -/
structure MusicLibItem where
  title : Option Str := none
  album : Option Str := none
  artists : Str := ("[]").data
  albumartists : Str := ("[]").data
  duration : ℚ := 0
  id : Nat
  path : String
  last_update : Nat
deriving DecidableEq

/-- The update loop body of `scan_update_musiclib` (`core.py` lines 120-121):
`for k, v in metareader.read_metadata(path).model_dump().items():
setattr(item, k, v)`.  `model_dump` of a `MusicMeta` yields exactly the five
metadata fields, so only those are overwritten — `id`, `path` and, notably,
`last_update` are left untouched. -/
def overwriteMeta (it : MusicLibItem) (m : MusicMeta) : MusicLibItem :=
  { it with
    title := m.title
    album := m.album
    artists := m.artists
    albumartists := m.albumartists
    duration := m.duration }

/-- Sequential effectful map: the first failure aborts, like an uncaught
exception escaping the Python `for` loops of `scan_update_musiclib`. -/
def mapE (f : α → Except Unit β) : List α → Except Unit (List β)
  | [] => .ok []
  | a :: as =>
    match f a, mapE f as with
    | .ok b, .ok bs => .ok (b :: bs)
    | .error e, _ => .error e
    | .ok _, .error e => .error e

/-- The row created for a `to_add` path (`core.py` lines 108-113):
`MusicLibItem.model_validate(metareader.read_metadata(path),
update={"path": path, "last_update": time.time()})`, with the UUID primary
key supplied by the id source `mkId`. -/
def mkAddedItem (mkId : String → Nat) (now : Nat) (p : String) (m : MusicMeta) :
    MusicLibItem :=
  { title := m.title
    album := m.album
    artists := m.artists
    albumartists := m.albumartists
    duration := m.duration
    id := mkId p
    path := p
    last_update := now }

/-- `scan_update_musiclib` (`core.py` lines 81-134).

Parameters standing for the collaborators: `metareader` is
`metareader.read_metadata` (TinyTag included, so it may fail), `now` is
`time.time()` during the pass, `mkId` the UUID source for new rows,
`sfiles` the walker snapshot `{path: mtime}` (`walk_all_musicfiles`), and
`catalog` the persisted `MusicLibItem` rows.

Faithful points: `to_add` are disk paths absent from the catalog;
`to_update` are disk paths whose mtime is strictly greater than the stored
`last_update`; `to_delete` are catalog paths absent from disk; added rows
get `last_update = now`; updated rows get only the five metadata fields
overwritten (`overwriteMeta`); the returned counts are the sizes of the
three sets.  An uncaught metadata-read failure aborts the pass
(`Except.error`). -/
def scan_update_musiclib (metareader : String → Except Unit MusicMeta)
    (now : Nat) (mkId : String → Nat)
    (sfiles : List (String × Nat)) (catalog : List MusicLibItem) :
    Except Unit ((Nat × Nat × Nat) × List MusicLibItem) :=
  let dfiles : List (String × Nat) := catalog.map (fun it => (it.path, it.last_update))
  let to_add : List String :=
    (sfiles.filter (fun pm => (dfiles.lookup pm.1).isNone)).map Prod.fst
  let to_update : List String :=
    (sfiles.filter (fun pm =>
      match dfiles.lookup pm.1 with
      | some lu => decide (lu < pm.2)
      | none => false)).map Prod.fst
  let to_delete : List String :=
    (catalog.map (fun it => it.path)).filter (fun p => (sfiles.lookup p).isNone)
  match mapE (fun p => (metareader p).map (mkAddedItem mkId now p)) to_add,
        mapE (fun it =>
          if to_update.contains it.path then (metareader it.path).map (overwriteMeta it)
          else .ok it) catalog with
  | .ok added, .ok updated =>
    .ok ((to_add.length, to_update.length, to_delete.length),
         updated.filter (fun it => !to_delete.contains it.path) ++ added)
  | .error e, _ => .error e
  | .ok _, .error e => .error e

/-! ### Access sessions (`core.py`, `verify_session`) -/

/-- `AccessSession` (`models.py` lines 24-27); the UUIDs are opaque `Nat`s,
`expires` is a timestamp. -/
structure AccessSession where
  id : Nat
  music_id : Nat
  expires : Nat
deriving DecidableEq

/-- The single 403 detail string of `verify_session` (`core.py` line 178) —
one message for both the expired and the absent case. -/
def sessionGoneMsg : Str := ("会话过期或者不存在，下次要早点来噢喵w").data

/-- `verify_session` (`core.py` lines 169-178) over the stored sessions
`db`: look the token up; an unexpired hit is returned unchanged together
with the untouched store; an expired hit is deleted from the store and the
403 raised; a miss raises the same 403.  The result pairs the
response (`Except` of HTTP status and detail) with the session store after
the call. -/
def verify_session (db : List AccessSession) (token : Nat) (now : Nat) :
    Except (Nat × Str) AccessSession × List AccessSession :=
  match db.find? (fun s => s.id == token) with
  | some sess =>
    if now < sess.expires then (.ok sess, db)
    else (.error (403, sessionGoneMsg), db.filter (fun s => !(s.id == sess.id)))
  | none => (.error (403, sessionGoneMsg), db)

/-! ### The draw (`core.py`, `new_share`) -/

/-- Python `str.strip()` (whitespace trimming on both ends). -/
def pyStrip (s : Str) : Str :=
  ((s.dropWhile Char.isWhitespace).reverse.dropWhile Char.isWhitespace).reverse

/-- `re.sub(r"[\"\'\\\/\[\]\{\}]", "", ·)` (`core.py` line 271): remove the
characters `"` `'` `\` `/` `[` `]` and the two braces (codes 34, 39, 92,
47, 91, 93, 123, 125). -/
def sanitizeArtist (s : Str) : Str :=
  s.filter (fun c => !([34, 39, 92, 47, 91, 93, 123, 125].contains c.toNat))

/-- `needle` occurs as a contiguous substring of `hay`. -/
def containsSub (hay needle : Str) : Bool :=
  (List.range (hay.length + 1)).any (fun i => isMatchAt needle (hay.drop i))

/-- SQL `icontains` on a nullable column: `NULL LIKE …` is not a match, a
non-null value matches when it contains the needle case-insensitively. -/
def icontainsCol (v : Option Str) (needle : Str) : Bool :=
  match v with
  | none => false
  | some s => containsSub (lowerStr s) (lowerStr needle)

/-- The conjunction of the `WHERE` clauses `new_share` builds
(`core.py` lines 273-278): each of the three filters is applied only when
its (already stripped/sanitised) value is non-empty; `title`/`album` are
nullable columns, `artists` is the non-null stored JSON string. -/
def matchesFilters (t al ar : Str) (it : MusicLibItem) : Bool :=
  (t.isEmpty || icontainsCol it.title t) &&
  (al.isEmpty || icontainsCol it.album al) &&
  (ar.isEmpty || containsSub (lowerStr it.artists) (lowerStr ar))

/-- The 503 detail of `new_share` when nothing matches (`core.py` line 305). -/
def noContentMsg : Str := ("哇呜，音乐库中没有可用的内容").data

/-- `new_share` (`core.py` lines 253-305), restricted to the drawing and
session-minting core.  The record store's
`ORDER BY random() LIMIT 1 → one_or_none` is modelled as indexing the
matching rows with an arbitrary `pickIdx` (reduced modulo the match count);
`sessId` stands for `uuid.uuid4()`.  On a hit the chosen row and the
freshly stored session (`expires = now + expires`) are returned; with no
matching row the 503 is raised. -/
def new_share (catalog : List MusicLibItem) (pickIdx : Nat) (sessId : Nat)
    (now : Nat) (expires : Nat) (title album artist : Str) :
    Except (Nat × Str) (MusicLibItem × AccessSession) :=
  let t := pyStrip title
  let al := pyStrip album
  let ar := sanitizeArtist (pyStrip artist)
  let matched := catalog.filter (matchesFilters t al ar)
  match matched[pickIdx % matched.length]? with
  | some item =>
    .ok (item, { id := sessId, music_id := item.id, expires := now + expires })
  | none => .error (503, noContentMsg)

/-! ### The maintenance gate (`core.py`, `pause_event` and the scan entry
points) -/

/-- The process-wide `threading.Event` `pause_event` (`core.py` line 44);
`paused` is `is_set()`. -/
structure GateState where
  paused : Bool
deriving DecidableEq

/-- `with_event_set` (`core.py` lines 220-226): set the event, run the body,
and clear the event in the `finally` block — on the success and on the
failure path alike.  The body receives the gate state (what a concurrent
`is_set()` observer sees while it runs) and returns its `Except` outcome
together with the gate state at its end. -/
def with_event_set (body : GateState → Except Unit α × GateState)
    (s : GateState) : Except Unit α × GateState :=
  let r := body { s with paused := true }
  (r.1, { r.2 with paused := false })

/-- The on-demand `/scan` endpoint `do_scan` (`core.py` lines 229-233): the
only scan entry point wrapped in `with_event_set(pause_event)`. -/
def run_on_demand_scan (body : GateState → Except Unit α × GateState)
    (s : GateState) : Except Unit α × GateState :=
  with_event_set body s

/-- The startup call `scan_update_musiclib()` inside `lifespan`
(`core.py` line 141): the scan is invoked directly, with no gate wrapper. -/
def run_startup_scan (body : GateState → Except Unit α × GateState)
    (s : GateState) : Except Unit α × GateState :=
  body s

/-- The scheduled job `scheduler.add_job(scan_update_musiclib, "interval",
…)` (`core.py` lines 147-149): the scheduler calls the scan directly, with
no gate wrapper. -/
def run_scheduled_scan (body : GateState → Except Unit α × GateState)
    (s : GateState) : Except Unit α × GateState :=
  body s

/-- A scan body that reports the gate state it observes while running
(stands for `pause_event.is_set()` read from inside the pass). -/
def probeBody : GateState → Except Unit Bool × GateState :=
  fun s => (.ok s.paused, s)

/-! ## Helper lemmas -/

theorem isMatchAt_append : ∀ (d s : Str), isMatchAt d s = true → d ++ s.drop d.length = s
  | [], s, _ => by simp
  | c :: cs, [], h => by simp [isMatchAt] at h
  | c :: cs, x :: xs, h => by
    simp only [isMatchAt, Bool.and_eq_true, beq_iff_eq] at h
    obtain ⟨rfl, h2⟩ := h
    simpa using isMatchAt_append cs xs h2

theorem splitFirst_spec : ∀ (d s pre post : Str), splitFirst d s = some (pre, post) →
    pre ++ d ++ post = s ∧ d ≠ []
  | d, [], pre, post, h => by simp [splitFirst] at h
  | d, c :: cs, pre, post, h => by
    rw [splitFirst] at h
    by_cases hd : d.isEmpty
    · simp [hd] at h
    · rw [if_neg hd] at h
      have hdne : d ≠ [] := fun hd0 => hd (by simp [hd0])
      by_cases hm : isMatchAt d (c :: cs)
      · rw [if_pos hm] at h
        obtain ⟨rfl, rfl⟩ : pre = [] ∧ (c :: cs).drop d.length = post := by
          simpa using h
        exact ⟨by simpa using isMatchAt_append d (c :: cs) hm, hdne⟩
      · rw [if_neg hm] at h
        cases hsf : splitFirst d cs with
        | none => rw [hsf] at h; simp at h
        | some pr =>
          rw [hsf] at h
          obtain ⟨rfl, rfl⟩ : c :: pr.1 = pre ∧ pr.2 = post := by
            simpa using h
          have ih := splitFirst_spec d cs pr.1 pr.2 (by rw [hsf])
          exact ⟨by simpa using ih.1, hdne⟩

theorem splitFirst_post_lt (d s pre post : Str) (h : splitFirst d s = some (pre, post)) :
    post.length < s.length := by
  obtain ⟨heq, hne⟩ := splitFirst_spec d s pre post h
  have : pre.length + (d.length + post.length) = s.length := by
    simpa [List.length_append] using congrArg List.length heq
  have : 1 ≤ d.length := by
    cases d with
    | nil => exact absurd rfl hne
    | cons a as => simp
  omega

theorem pySplitAux_ne_nil (d : Str) : ∀ (fuel : Nat) (s : Str), pySplitAux d fuel s ≠ []
  | 0, s => by simp [pySplitAux]
  | fuel + 1, s => by
    rw [pySplitAux]
    cases h : splitFirst d s with
    | none => simp
    | some pr => simp

theorem pyJoin_cons (d x : Str) (l : List Str) (h : l ≠ []) :
    pyJoin d (x :: l) = x ++ d ++ pyJoin d l := by
  cases l with
  | nil => exact absurd rfl h
  | cons y rest => rfl

theorem pyJoin_pySplitAux (d : Str) : ∀ (fuel : Nat) (s : Str), s.length ≤ fuel →
    pyJoin d (pySplitAux d fuel s) = s
  | 0, s, hs => by
    have : s = [] := List.length_eq_zero.mp (Nat.le_zero.mp hs)
    subst this
    rfl
  | fuel + 1, s, hs => by
    rw [pySplitAux]
    cases h : splitFirst d s with
    | none => rfl
    | some pr =>
      obtain ⟨pre, post⟩ := pr
      have hlt : post.length < s.length := splitFirst_post_lt d s pre post h
      rw [pyJoin_cons d pre _ (pySplitAux_ne_nil d fuel post),
          pyJoin_pySplitAux d fuel post (by omega)]
      exact (splitFirst_spec d s pre post h).1

theorem pyJoin_pySplit (d s : Str) : pyJoin d (pySplit d s) = s :=
  pyJoin_pySplitAux d s.length s (Nat.le_refl _)

theorem mergeExcs_ne_nil (d : Str) (E : List Str) (ic : Bool) :
    ∀ (xs : List Str), xs ≠ [] → mergeExcs d E ic xs ≠ [] := by
  intro xs hxs
  match xs with
  | [x] => simp [mergeExcs]
  | x :: y :: rest =>
    rw [mergeExcs]
    by_cases hm : (if ic then lowerStr (x ++ d ++ y) else x ++ d ++ y) ∈ E
    · rw [if_pos hm]; simp
    · rw [if_neg hm]; simp

theorem pyJoin_mergeExcs (d : Str) (E : List Str) (ic : Bool) :
    ∀ (xs : List Str), pyJoin d (mergeExcs d E ic xs) = pyJoin d xs
  | [] => rfl
  | [x] => rfl
  | x :: y :: rest => by
    rw [mergeExcs]
    by_cases hm : (if ic then lowerStr (x ++ d ++ y) else x ++ d ++ y) ∈ E
    · rw [if_pos hm]
      cases rest with
      | nil => simp [mergeExcs, pyJoin, List.append_assoc]
      | cons z zs =>
        rw [pyJoin_cons d _ _ (mergeExcs_ne_nil d E ic (z :: zs) (by simp)),
            pyJoin_mergeExcs d E ic (z :: zs)]
        simp [pyJoin, List.append_assoc]
    · rw [if_neg hm]
      rw [pyJoin_cons d x _ (mergeExcs_ne_nil d E ic (y :: rest) (by simp)),
          pyJoin_mergeExcs d E ic (y :: rest)]
      rfl

/-! ## Claims about the splitter -/

/-- C6 (counterexample): the claim that with delimiter `/` and exclusion
`AC/DC`, splitting `AC/DC feat. X/Y` yields `["AC/DC feat. X", "Y"]` is
false on the code: the exclusion test compares the two adjacent split
segments rejoined with the delimiter for *equality* with an exclusion, and
`AC/DC feat. X ≠ AC/DC`, so the first delimiter occurrence is split too. -/
theorem split_exclusion_claim_counterexample :
    split_with_exclusions (("AC/DC feat. X/Y").data) (("/").data)
      [(("AC/DC").data)] false
    ≠ [(("AC/DC feat. X").data), (("Y").data)] := by
  decide

/-- C6 (amended): with delimiter `/` and exclusion `AC/DC`, the code splits
`AC/DC feat. X/Y` into `["AC", "DC feat. X", "Y"]` — an exclusion only
suppresses a split when the two adjacent segments rejoined with the
delimiter are exactly the exclusion, as in `AC/DC/Y → ["AC/DC", "Y"]`. -/
theorem split_exclusion_exact_pair_only :
    split_with_exclusions (("AC/DC feat. X/Y").data) (("/").data)
      [(("AC/DC").data)] false
      = [(("AC").data), (("DC feat. X").data), (("Y").data)] ∧
    split_with_exclusions (("AC/DC/Y").data) (("/").data)
      [(("AC/DC").data)] false
      = [(("AC/DC").data), (("Y").data)] := by
  exact ⟨by decide, by decide⟩

/-- C7: `handle_artist_field` on the single-element field `["Queen"]` under
the default configuration (delimiters `/`, `;`, `,`, no exclusions) — no
candidate yields more than one segment, and the function returns Python
`None` (not the original one-element list), which `json.dumps` then
serialises as `null` into the `artists` column. -/
theorem handle_artist_field_no_candidate_returns_none :
    handle_artist_field defaultConfig [(("Queen").data)] = none ∧
    jsonDumps (handle_artist_field defaultConfig [(("Queen").data)]) = ("null").data := by
  exact ⟨by decide, by decide⟩

/-- C10: splitting with exclusions never loses or alters characters — for
every input string, non-empty delimiter, exclusion list and case flag,
rejoining the returned segments with the delimiter reproduces the input. -/
theorem split_with_exclusions_join_roundtrip (s d : Str) (excs : List Str)
    (ic : Bool) (_hd : d ≠ []) :
    pyJoin d (split_with_exclusions s d excs ic) = s := by
  rw [split_with_exclusions]
  by_cases he : excs.isEmpty
  · rw [if_pos he]
    exact pyJoin_pySplit d s
  · rw [if_neg he, pyJoin_mergeExcs]
    exact pyJoin_pySplit d s

/-- Witness for C10 at a concrete input. -/
theorem split_with_exclusions_join_roundtrip_witness :
    pyJoin (("/").data)
      (split_with_exclusions (("AC/DC feat. X/Y").data) (("/").data)
        [(("AC/DC").data)] false)
      = ("AC/DC feat. X/Y").data :=
  split_with_exclusions_join_roundtrip (("AC/DC feat. X/Y").data) (("/").data)
    [(("AC/DC").data)] false (by decide)

/-! ## Reconciliation lemmas and claims -/

/-- Concrete metadata returned by the reader in the reconciliation
fixtures. -/
def fixtureMeta : MusicMeta :=
  { title := some (("New").data)
    album := some (("Al").data)
    artists := ("na").data
    albumartists := ("nb").data
    duration := 3 }

/-- A metadata reader that always succeeds with `fixtureMeta`. -/
def fixtureReader : String → Except Unit MusicMeta := fun _ => .ok fixtureMeta

/-- A fixed id source for new rows. -/
def fixtureId : String → Nat := fun _ => 99

/-- A one-row catalog: path `a.mp3`, id 7, watermark `last_update = 1`. -/
def fixtureCatalog : List MusicLibItem :=
  [{ title := some (("Old").data), id := 7, path := "a.mp3", last_update := 1 }]

/-- C1 (code evaluated at the failing input): re-reading the changed file
`a.mp3` (disk mtime 5 > stored `last_update` 1, current time 10) overwrites
the five metadata fields and keeps `id = 7`, but leaves `last_update` at
its stale value 1 instead of setting it to the current time 10 — the update
loop copies only `MusicMeta.model_dump()`, which has no `last_update` key,
so `lastUpdate` does not increase on a re-read. -/
theorem scan_update_keeps_stale_last_update :
    scan_update_musiclib fixtureReader 10 fixtureId [("a.mp3", 5)] fixtureCatalog
      = .ok ((0, 1, 0),
        [{ title := some (("New").data)
           album := some (("Al").data)
           artists := ("na").data
           albumartists := ("nb").data
           duration := 3
           id := 7
           path := "a.mp3"
           last_update := 1 }]) ∧ (1 : Nat) ≠ 10 := by
  exact ⟨rfl, by decide⟩

/-- C2 (code evaluated at the failing input): with no filesystem change
(the snapshot `{a.mp3 ↦ 5}` both times), the second reconciliation pass
returns `(0, 1, 0)`, not `(0, 0, 0)` — the first pass never advanced
`last_update`, so the same file is re-detected as changed. -/
theorem scan_second_pass_not_noop :
    ((scan_update_musiclib fixtureReader 10 fixtureId [("a.mp3", 5)] fixtureCatalog).bind
      (fun r => scan_update_musiclib fixtureReader 20 fixtureId [("a.mp3", 5)] r.2)).map
        Prod.fst
      = .ok (0, 1, 0) ∧ ((0, 1, 0) : Nat × Nat × Nat) ≠ (0, 0, 0) := by
  exact ⟨rfl, by decide⟩

theorem mapE_add_paths (metareader : String → Except Unit MusicMeta)
    (now : Nat) (mkId : String → Nat) :
    ∀ (ps : List String) (l : List MusicLibItem),
      mapE (fun p => (metareader p).map (mkAddedItem mkId now p)) ps = .ok l →
      l.map (fun it => it.path) = ps
  | [], l, h => by
    simp only [mapE] at h
    obtain rfl : ([] : List MusicLibItem) = l := by simpa using h
    rfl
  | p :: ps, l, h => by
    simp only [mapE] at h
    cases hm : metareader p with
    | error e => rw [hm] at h; simp [Except.map] at h
    | ok m =>
      rw [hm] at h
      cases hrest : mapE (fun p => (metareader p).map (mkAddedItem mkId now p)) ps with
      | error e => rw [hrest] at h; simp [Except.map] at h
      | ok bs =>
        rw [hrest] at h
        obtain rfl : mkAddedItem mkId now p m :: bs = l := by
          simpa [Except.map] using h
        simp [mkAddedItem, mapE_add_paths metareader now mkId ps bs hrest]

theorem mapE_paths_preserved (f : MusicLibItem → Except Unit MusicLibItem)
    (hf : ∀ it b, f it = .ok b → b.path = it.path) :
    ∀ (l l' : List MusicLibItem), mapE f l = .ok l' →
      l'.map (fun it => it.path) = l.map (fun it => it.path)
  | [], l', h => by
    simp only [mapE] at h
    obtain rfl : ([] : List MusicLibItem) = l' := by simpa using h
    rfl
  | it :: rest, l', h => by
    simp only [mapE] at h
    cases hm : f it with
    | error e => rw [hm] at h; simp at h
    | ok b =>
      rw [hm] at h
      cases hrest : mapE f rest with
      | error e => rw [hrest] at h; simp at h
      | ok bs =>
        rw [hrest] at h
        obtain rfl : b :: bs = l' := by simpa using h
        simp [hf it b hm, mapE_paths_preserved f hf rest bs hrest]

theorem lookup_isSome_iff : ∀ (l : List (String × Nat)) (p : String),
    (l.lookup p).isSome = true ↔ p ∈ l.map Prod.fst
  | [], p => by simp [List.lookup]
  | (k, v) :: t, p => by
    by_cases hk : p = k
    · subst hk
      simp [List.lookup]
    · have : (p == k) = false := by simpa using hk
      simp [List.lookup, this, hk, lookup_isSome_iff t p]

/-- C3: after a reconciliation pass completes (over path-unique inputs, as
the walker's dict and the db's unique `path` column guarantee), the
catalog's path set is exactly the walker's discovered path set: every
discovered path was added or retained, every catalog path absent from disk
was deleted. -/
theorem scan_completeness (metareader : String → Except Unit MusicMeta)
    (now : Nat) (mkId : String → Nat) (sfiles : List (String × Nat))
    (catalog : List MusicLibItem)
    (_hs : (sfiles.map Prod.fst).Nodup)
    (_hc : (catalog.map (fun it => it.path)).Nodup)
    (counts : Nat × Nat × Nat) (result : List MusicLibItem)
    (h : scan_update_musiclib metareader now mkId sfiles catalog
          = .ok (counts, result)) :
    ∀ p : String, p ∈ result.map (fun it => it.path) ↔ p ∈ sfiles.map Prod.fst := by
  intro p
  simp only [scan_update_musiclib] at h
  cases hadd : mapE (fun p => (metareader p).map
      (mkAddedItem mkId now p))
      ((sfiles.filter (fun pm =>
        ((catalog.map (fun it => (it.path, it.last_update))).lookup pm.1).isNone)).map
        Prod.fst) with
  | error e => rw [hadd] at h; simp at h
  | ok added =>
  cases hupd : mapE (fun it =>
      if ((sfiles.filter (fun pm =>
            match (catalog.map (fun it => (it.path, it.last_update))).lookup pm.1 with
            | some lu => decide (lu < pm.2)
            | none => false)).map Prod.fst).contains it.path then
        (metareader it.path).map (overwriteMeta it)
      else .ok it) catalog with
  | error e => rw [hadd, hupd] at h; simp at h
  | ok updated =>
  rw [hadd, hupd] at h
  simp only [Except.ok.injEq, Prod.mk.injEq] at h
  obtain ⟨-, h2⟩ := h
  subst h2
  have hap : added.map (fun it => it.path)
      = (sfiles.filter (fun pm =>
          ((catalog.map (fun it => (it.path, it.last_update))).lookup pm.1).isNone)).map
          Prod.fst :=
    mapE_add_paths metareader now mkId _ added hadd
  have hup : updated.map (fun it => it.path) = catalog.map (fun it => it.path) := by
    refine mapE_paths_preserved _ ?_ catalog updated hupd
    intro it b hb
    by_cases hmem : ((sfiles.filter (fun pm =>
        match (catalog.map (fun it => (it.path, it.last_update))).lookup pm.1 with
        | some lu => decide (lu < pm.2)
        | none => false)).map Prod.fst).contains it.path
    · rw [if_pos hmem] at hb
      cases hm : metareader it.path with
      | error e => rw [hm] at hb; simp [Except.map] at hb
      | ok m =>
        rw [hm] at hb
        obtain rfl : overwriteMeta it m = b := by simpa [Except.map] using hb
        rfl
    · rw [if_neg hmem] at hb
      obtain rfl : it = b := by simpa using hb
      rfl
  have hdf : (catalog.map (fun it => (it.path, it.last_update))).map Prod.fst
      = catalog.map (fun it => it.path) := by
    simp [List.map_map, Function.comp]
  constructor
  · intro hp
    rw [List.map_append, List.mem_append] at hp
    rcases hp with hp | hp
    · obtain ⟨it, hit, rfl⟩ := List.mem_map.mp hp
      obtain ⟨hitu, hkeep⟩ := List.mem_filter.mp hit
      have hpc : it.path ∈ catalog.map (fun it => it.path) := by
        rw [← hup]; exact List.mem_map.mpr ⟨it, hitu, rfl⟩
      by_contra hnd
      have hnone : (sfiles.lookup it.path).isNone = true := by
        cases hl : sfiles.lookup it.path with
        | none => rfl
        | some v =>
          exact absurd ((lookup_isSome_iff sfiles it.path).mp (by rw [hl]; rfl)) hnd
      have hcmem : it.path ∈ (catalog.map (fun it => it.path)).filter
          (fun q => (sfiles.lookup q).isNone) :=
        List.mem_filter.mpr ⟨hpc, hnone⟩
      have hcont : ((catalog.map (fun it => it.path)).filter
          (fun q => (sfiles.lookup q).isNone)).contains it.path = true := by
        simpa using hcmem
      rw [hcont] at hkeep
      exact absurd hkeep (by simp)
    · rw [hap] at hp
      obtain ⟨pm, hpm, rfl⟩ := List.mem_map.mp hp
      exact List.mem_map.mpr ⟨pm, (List.mem_filter.mp hpm).1, rfl⟩
  · intro hp
    rw [List.map_append, List.mem_append]
    by_cases hpc : p ∈ catalog.map (fun it => it.path)
    · left
      have hpu : p ∈ updated.map (fun it => it.path) := by rw [hup]; exact hpc
      obtain ⟨it, hitu, hpath⟩ := List.mem_map.mp hpu
      refine List.mem_map.mpr ⟨it, List.mem_filter.mpr ⟨hitu, ?_⟩, hpath⟩
      have hsm : (sfiles.lookup it.path).isSome = true :=
        (lookup_isSome_iff sfiles it.path).mpr (hpath ▸ hp)
      rw [Bool.not_eq_true']
      cases hcont : ((catalog.map (fun it => it.path)).filter
          (fun q => (sfiles.lookup q).isNone)).contains it.path with
      | false => rfl
      | true =>
        exfalso
        have hm : it.path ∈ (catalog.map (fun it => it.path)).filter
            (fun q => (sfiles.lookup q).isNone) := by
          simpa using hcont
        have h2 := (List.mem_filter.mp hm).2
        rw [Option.isNone_iff_eq_none] at h2
        rw [h2] at hsm
        exact absurd hsm (by simp)
    · right
      rw [hap]
      obtain ⟨m, hm⟩ := List.mem_map.mp hp
      refine List.mem_map.mpr ⟨m, List.mem_filter.mpr ⟨hm.1, ?_⟩, hm.2⟩
      cases hl : (catalog.map (fun it => (it.path, it.last_update))).lookup m.1 with
      | none => rfl
      | some v =>
        exfalso
        have hsm := (lookup_isSome_iff _ m.1).mp (by rw [hl]; rfl)
        rw [hdf] at hsm
        exact hpc (hm.2 ▸ hsm)

/-- Witness for C3 at a concrete input: one new file on disk, empty
catalog. -/
theorem scan_completeness_witness :
    "b.mp3" ∈ ([mkAddedItem fixtureId 10 ("b.mp3") fixtureMeta].map
        (fun it => it.path))
      ↔ "b.mp3" ∈ ([(("b.mp3" : String), (5 : Nat))].map Prod.fst) :=
  scan_completeness fixtureReader 10 fixtureId [("b.mp3", 5)] []
    (by simp) (by simp) (1, 0, 0) _ rfl ("b.mp3")

/-! ## Session claims -/

/-- C4 (counterexample): validating the token `1` when its stored session
has just expired (`expires = 5`, `now = 5`) produces a response literally
equal to the one for a token with no stored session at all — both are the
same 403 with the same detail string, so `Expired` and `NotFound` are not
surfaced as distinct, distinguishable responses. -/
theorem verify_session_same_error_counterexample :
    (verify_session [{ id := 1, music_id := 9, expires := 5 }] 1 5).1
      = (verify_session [] 1 5).1 ∧
    (verify_session [{ id := 1, music_id := 9, expires := 5 }] 1 5).1
      = .error (403, sessionGoneMsg) := by
  exact ⟨rfl, rfl⟩

/-- C4 (amended): an absent token fails with the 403 "expired or missing"
response; a stored session whose expiry has passed is deleted and fails with
the *same* 403 response (so a subsequent validate with the same token again
fails, now because the session is absent); an unexpired session is returned
itself (the bound catalog entry is resolved separately by each endpoint) and
the store is left unchanged.  The expired and absent failures are one and
the same response, not distinguishable ones. -/
theorem verify_session_behavior (db : List AccessSession) (tok now : Nat) :
    (db.find? (fun s => s.id == tok) = none →
      verify_session db tok now = (.error (403, sessionGoneMsg), db)) ∧
    (∀ sess, db.find? (fun s => s.id == tok) = some sess → sess.expires ≤ now →
      verify_session db tok now
        = (.error (403, sessionGoneMsg), db.filter (fun s => !(s.id == sess.id))) ∧
      (verify_session (verify_session db tok now).2 tok now).1
        = .error (403, sessionGoneMsg)) ∧
    (∀ sess, db.find? (fun s => s.id == tok) = some sess → now < sess.expires →
      verify_session db tok now = (.ok sess, db)) := by
  refine ⟨?_, ?_, ?_⟩
  · intro hfind
    unfold verify_session
    rw [hfind]
  · intro sess hfind hexp
    have heq : verify_session db tok now
        = (.error (403, sessionGoneMsg), db.filter (fun s => !(s.id == sess.id))) := by
      unfold verify_session
      rw [hfind]
      exact if_neg (by omega)
    refine ⟨heq, ?_⟩
    have hid : sess.id = tok := by
      have := List.find?_some hfind
      simpa using this
    have hnone : (db.filter (fun s => !(s.id == sess.id))).find?
        (fun s => s.id == tok) = none := by
      rw [List.find?_eq_none]
      intro x hx
      have := (List.mem_filter.mp hx).2
      rw [Bool.not_eq_true'] at this
      rw [hid] at this
      simp [this]
    rw [heq]
    show (verify_session (db.filter (fun s => !(s.id == sess.id))) tok now).1
      = .error (403, sessionGoneMsg)
    unfold verify_session
    rw [hnone]
  · intro sess hfind hexp
    unfold verify_session
    rw [hfind]
    exact if_pos hexp

/-- Witness for C4's amended theorem: the three branches at concrete
stores. -/
theorem verify_session_behavior_witness :
    (verify_session [] 1 5 = (.error (403, sessionGoneMsg), [])) ∧
    (verify_session [{ id := 1, music_id := 9, expires := 5 }] 1 5
      = (.error (403, sessionGoneMsg), [])) ∧
    (verify_session [{ id := 1, music_id := 9, expires := 5 }] 1 4
      = (.ok { id := 1, music_id := 9, expires := 5 },
         [{ id := 1, music_id := 9, expires := 5 }])) :=
  ⟨(verify_session_behavior [] 1 5).1 rfl,
   (((verify_session_behavior [{ id := 1, music_id := 9, expires := 5 }] 1 5).2.1
      { id := 1, music_id := 9, expires := 5 } rfl (by decide)).1),
   ((verify_session_behavior [{ id := 1, music_id := 9, expires := 5 }] 1 4).2.2
      { id := 1, music_id := 9, expires := 5 } rfl (by decide))⟩

/-! ## Tag-extractor failure claims -/

/-- A TinyTag oracle that fails — `TinyTag.get` raising on an unsupported
or malformed file. -/
def tinytagFail : String → Except Unit TagDict := fun _ => .error ()

/-- A TinyTag oracle that parses the file but finds no tags at all. -/
def tinytagEmptyOk : String → Except Unit TagDict := fun _ => .ok {}

/-- C5 (counterexample): on a file whose tags TinyTag cannot parse, the tag
extractor does not return a defaults record — `read_metadata` has no
exception handler, so the failure propagates out of it. -/
theorem read_metadata_propagates_failure_counterexample :
    read_metadata defaultConfig tinytagFail ("bad.xyz") = .error () := rfl

/-- C5 (amended): for a file TinyTag parses but that carries no tags, the
extractor returns the all-defaults record (title and album absent, artists
and albumartists the empty JSON list, duration 0); but when TinyTag raises
on a malformed or unsupported file, `read_metadata` propagates the failure
and a reconciliation pass that reads that file aborts. -/
theorem read_metadata_defaults_or_abort (cfg : ConfigModel)
    (tg : String → Except Unit TagDict) (p : String) :
    (tg p = .ok {} →
      read_metadata cfg tg p
        = .ok { title := none, album := none, artists := ("[]").data,
                albumartists := ("[]").data, duration := 0 }) ∧
    (tg p = .error () →
      read_metadata cfg tg p = .error () ∧
      scan_update_musiclib (read_metadata cfg tg) 10 (fun _ => 0) [(p, 5)] []
        = .error ()) := by
  constructor
  · intro h
    unfold read_metadata
    rw [h]
    rfl
  · intro h
    have hrm : read_metadata cfg tg p = .error () := by
      unfold read_metadata
      rw [h]
      rfl
    refine ⟨hrm, ?_⟩
    simp only [scan_update_musiclib, List.map_nil, List.lookup_nil, Option.isNone_none,
      List.filter_nil]
    simp only [mapE, hrm, Except.map]

/-- Witness for C5's amended theorem: both branches at concrete oracles. -/
theorem read_metadata_defaults_or_abort_witness :
    (read_metadata defaultConfig tinytagEmptyOk ("a.mp3")
      = .ok { title := none, album := none, artists := ("[]").data,
              albumartists := ("[]").data, duration := 0 }) ∧
    (read_metadata defaultConfig tinytagFail ("a.mp3") = .error ()) :=
  ⟨(read_metadata_defaults_or_abort defaultConfig tinytagEmptyOk ("a.mp3")).1 rfl,
   ((read_metadata_defaults_or_abort defaultConfig tinytagFail ("a.mp3")).2 rfl).1⟩

/-! ## Maintenance-gate claims -/

/-- C8 (counterexample): the startup reconciliation pass (`lifespan` calls
`scan_update_musiclib()` directly, with no gate wrapper) runs while the
pause flag is still clear: a probe inside the scan observes
`isPaused() = false` even though a scan is in flight. -/
theorem startup_scan_runs_unpaused_counterexample :
    run_startup_scan probeBody { paused := false }
      = (.ok false, { paused := false }) := rfl

/-- C8 (amended): only the on-demand `/scan` endpoint wraps the pass in the
maintenance gate — inside it the scan body always observes `paused = true`
and the flag is cleared on every exit path (whatever the body's outcome or
final state); the startup and scheduled-interval passes invoke the scan
directly and never touch the flag. -/
theorem scan_gate_behavior (α : Type) (body : GateState → Except Unit α × GateState)
    (s : GateState) :
    run_on_demand_scan body s
      = ((body { paused := true }).1, { paused := false }) ∧
    ({ paused := true } : GateState).paused = true ∧
    (run_on_demand_scan body s).2.paused = false ∧
    run_startup_scan body s = body s ∧
    run_scheduled_scan body s = body s := by
  exact ⟨rfl, rfl, rfl, rfl, rfl⟩

/-! ## Draw claims -/

/-- C9: for every catalog state, a draw with a title filter (a non-empty,
already-trimmed string, as the endpoint strips whitespace before
filtering) only ever returns a catalog entry whose title contains that
string case-insensitively — whatever row the randomised pick lands on —
and when no entry matches all supplied filters the draw fails with the
no-match 503. -/
theorem new_share_title_filter (catalog : List MusicLibItem)
    (pickIdx sessId now expires : Nat) (title album artist : Str)
    (hstrip : pyStrip title = title) (hne : title ≠ []) :
    (∀ item sess,
      new_share catalog pickIdx sessId now expires title album artist
        = .ok (item, sess) →
      icontainsCol item.title title = true) ∧
    ((∀ it ∈ catalog,
        matchesFilters title (pyStrip album) (sanitizeArtist (pyStrip artist)) it
          = false) →
      new_share catalog pickIdx sessId now expires title album artist
        = .error (503, noContentMsg)) := by
  have hemp : title.isEmpty = false := by
    cases title with
    | nil => exact absurd rfl hne
    | cons c cs => rfl
  constructor
  · intro item sess h
    simp only [new_share, hstrip] at h
    cases hg : (catalog.filter
        (matchesFilters title (pyStrip album) (sanitizeArtist (pyStrip artist))))[pickIdx %
          (catalog.filter
            (matchesFilters title (pyStrip album)
              (sanitizeArtist (pyStrip artist)))).length]? with
    | none => rw [hg] at h; simp at h
    | some it =>
      rw [hg] at h
      obtain ⟨rfl, -⟩ : it = item ∧ _ := by simpa using h
      have hmem := List.getElem?_mem hg
      have hmf := (List.mem_filter.mp hmem).2
      simp only [matchesFilters, Bool.and_eq_true, Bool.or_eq_true] at hmf
      rcases hmf.1.1 with he | hc
      · rw [hemp] at he; exact absurd he (by simp)
      · exact hc
  · intro hall
    have hfil : catalog.filter
        (matchesFilters title (pyStrip album) (sanitizeArtist (pyStrip artist))) = [] := by
      rw [List.filter_eq_nil_iff]
      intro a ha
      rw [hall a ha]
      simp
    simp only [new_share, hstrip, hfil]
    rfl

/-- The two-row catalog used as the C9 witness. -/
def drawCatalog : List MusicLibItem :=
  [{ id := 1, path := "p", last_update := 0, title := some (("My FooBar").data) },
   { id := 2, path := "q", last_update := 0, title := some (("Other").data) }]

/-- Witness for C9 at a concrete catalog: the draw with title filter
`foo` returns the `My FooBar` row, whose title contains the filter
case-insensitively. -/
theorem new_share_title_filter_witness :
    icontainsCol
      ({ id := 1, path := "p", last_update := 0,
         title := some (("My FooBar").data) } : MusicLibItem).title
      (("foo").data) = true :=
  (new_share_title_filter drawCatalog 0 5 100 60 (("foo").data) [] []
      (by decide) (by decide)).1
    { id := 1, path := "p", last_update := 0, title := some (("My FooBar").data) }
    { id := 5, music_id := 1, expires := 160 } rfl

end MusicLottery
